import Mathlib

/-!
A shallow embedding of the LS-8 CPU emulator in `cpu.py` (class `CPU`),
together with theorems checking the repository's specification against it.

Modelling conventions:
* Python integers are unbounded, so machine values are `Int`.
* Python lists (`self.ram`, `self.registers`) are `List Int`; Python's
  indexing semantics (negative indices address from the end, out-of-range
  indices raise `IndexError`) are captured by `pyGet` / `pySet`.
* Python exceptions are captured by `Except`: every handler returns either
  a successor state or an error paired with the machine state at the moment
  the exception was raised (Python does not roll back mutations).
* Python's `&`, `|`, `~`, `>>` on `int` are two's-complement operations on
  unbounded integers; they are modelled by Mathlib's `Int.land`, `Int.lor`,
  `Int.lnot` and the arithmetic `Int` shift.
-/

deriving instance DecidableEq for Except

set_option maxRecDepth 10000

namespace LS8

instance : AndOp Int := ⟨Int.land⟩

instance : OrOp Int := ⟨Int.lor⟩

instance : Complement Int := ⟨Int.lnot⟩

/-- The Python exceptions that the interpreter can raise. -/
inductive PyErr where
  /-- `KeyError` from `self.branch_table[self.ir]` when the opcode has no
      registered handler: the "illegal instruction" condition. -/
  | illegalInstruction
  /-- `IndexError` from indexing `self.ram` or `self.registers` out of range. -/
  | indexError
  /-- `SystemExit` raised by `sys.exit()` in `hlt` (normal halt). -/
  | systemExit
  /-- `Exception("Unsupported ALU operation")` from `CPU.alu`. -/
  | unsupportedALUOperation
deriving DecidableEq, Repr

/-- The machine state held on the `CPU` object.  The fields mirror
`CPU.__init__`; `mar`/`mdr` are omitted because the source never reads or
writes them after construction.  `output` records the values printed by
`prn` (the output boundary), in order. -/
structure CPUState where
  ram : List Int
  registers : List Int
  pc : Int
  ir : Int
  fl : Int
  output : List Int
deriving DecidableEq, Repr

/-- Result of running one piece of Python code: either the successor state
or the raised exception together with the state at raise time. -/
abbrev PyResult := Except (PyErr × CPUState) CPUState

/-- Translate a Python list index: non-negative indices must be `< len`,
negative indices `i` with `-len ≤ i` address cell `len + i`; anything else
is out of range. -/
def pyIdx (len : Nat) (i : Int) : Option Nat :=
  if 0 ≤ i ∧ i < len then some i.toNat
  else if 0 ≤ i + len ∧ i < 0 then some (i + len).toNat
  else none

/-- Python list read `l[i]` (raises `IndexError` when out of range). -/
def pyGet (l : List Int) (i : Int) : Except PyErr Int :=
  match pyIdx l.length i with
  | some n => .ok (l.getD n 0)
  | none => .error .indexError

/-- Python list write `l[i] = v` (raises `IndexError` when out of range). -/
def pySet (l : List Int) (i : Int) (v : Int) : Except PyErr (List Int) :=
  match pyIdx l.length i with
  | some n => .ok (l.set n v)
  | none => .error .indexError

/-- Run a fallible list access in state `s`: on failure the raised exception
carries `s` (the mutations made so far). -/
def tryE (s : CPUState) (x : Except PyErr α) (k : α → PyResult) : PyResult :=
  match x with
  | .error e => .error (e, s)
  | .ok a => k a

/-- The module-level `instructions` dictionary of `cpu.py`. -/
def instructions (name : String) : Int :=
  if name = "???" then 0b00000000
  else if name = "HLT" then 0b00000001
  else if name = "LDI" then 0b00000010
  else if name = "PUSH" then 0b00000101
  else if name = "POP" then 0b00000110
  else if name = "PRN" then 0b00000111
  else if name = "CALL" then 0b00010000
  else if name = "RET" then 0b00010001
  else if name = "JMP" then 0b00010100
  else if name = "JEQ" then 0b00010101
  else if name = "JNE" then 0b00010110
  else if name = "CMP" then 0b00100111
  else if name = "ADD" then 0b00100000
  else if name = "MUL" then 0b00100010
  else 0

/-- `CPU.ram_read`. -/
def ram_read (s : CPUState) (mar : Int) : Except PyErr Int :=
  pyGet s.ram mar

/-- `CPU.ram_write`. -/
def ram_write (s : CPUState) (mar mdr : Int) : Except PyErr (List Int) :=
  pySet s.ram mar mdr

/-- `CPU.alu`.  `ADD` stores the plain integer sum (the source applies no
mask); `CMP` performs the three sequential flag updates.  The source reads
`self.registers[reg_a]` / `[reg_b]` once per comparison, but no statement in
between mutates them, so the reads are bound once here. -/
def alu (s : CPUState) (op : String) (reg_a reg_b : Int) : PyResult :=
  if op = "ADD" then
    tryE s (pyGet s.registers reg_a) fun va =>
    tryE s (pyGet s.registers reg_b) fun vb =>
    tryE s (pySet s.registers reg_a (va + vb)) fun regs =>
    .ok { s with registers := regs }
  else if op = "CMP" then
    tryE s (pyGet s.registers reg_a) fun va =>
    tryE s (pyGet s.registers reg_b) fun vb =>
    -- if equal: self.fl |= 0x01 else self.fl &= ~0x01
    let fl1 := if va = vb then s.fl ||| 0x01 else s.fl &&& ~~~(0x01 : Int)
    -- if greater: self.fl |= 0x02 else self.fl &= ~0x02
    let fl2 := if va > vb then fl1 ||| 0x02 else fl1 &&& ~~~(0x02 : Int)
    -- if less: self.fl |= 0x04 else self.fl &= ~0x04
    let fl3 := if va < vb then fl2 ||| 0x04 else fl2 &&& ~~~(0x04 : Int)
    .ok { s with fl := fl3 }
  else
    .error (.unsupportedALUOperation, s)

/-- `CPU.hlt`: `sys.exit()`. -/
def hlt (s : CPUState) : PyResult :=
  .error (.systemExit, s)

/-- `CPU.ldi`: `self.registers[self.ram_read(self.pc + 1) & 0x07] =
self.ram_read(self.pc + 2)`. -/
def ldi (s : CPUState) : PyResult :=
  tryE s (ram_read s (s.pc + 1)) fun b1 =>
  tryE s (ram_read s (s.pc + 2)) fun b2 =>
  tryE s (pySet s.registers (b1 &&& 0x07) b2) fun regs =>
  .ok { s with registers := regs }

/-- `CPU.push`.  `self.sp` is the property aliasing `self.registers[7]`;
`self.sp -= 1` followed by `self.sp &= 0xFF` is one combined update here
(no statement can observe the intermediate value).  The register operand is
the unmasked byte at `pc + 1`. -/
def push (s : CPUState) : PyResult :=
  tryE s (pyGet s.registers 7) fun sp0 =>
  tryE s (pySet s.registers 7 ((sp0 - 1) &&& 0xFF)) fun regs1 =>
  let s1 : CPUState := { s with registers := regs1 }
  tryE s1 (ram_read s1 (s1.pc + 1)) fun reg_num =>
  tryE s1 (pyGet s1.registers reg_num) fun value =>
  tryE s1 (pyGet s1.registers 7) fun sp1 =>
  tryE s1 (ram_write s1 sp1 value) fun ram1 =>
  .ok { s1 with ram := ram1 }

/-- `CPU.pop`: read `Memory[SP]`, store it in the register named by the
unmasked byte at `pc + 1`, then `self.sp += 1` (which re-reads
`self.registers[7]` after that store). -/
def pop (s : CPUState) : PyResult :=
  tryE s (pyGet s.registers 7) fun sp0 =>
  tryE s (ram_read s sp0) fun value =>
  tryE s (ram_read s (s.pc + 1)) fun reg_num =>
  tryE s (pySet s.registers reg_num value) fun regs1 =>
  let s1 : CPUState := { s with registers := regs1 }
  tryE s1 (pyGet s1.registers 7) fun sp1 =>
  tryE s1 (pySet s1.registers 7 (sp1 + 1)) fun regs2 =>
  .ok { s1 with registers := regs2 }

/-- `CPU.prn`: `print(self.registers[self.ram_read(self.pc + 1) & 0x07])`. -/
def prn (s : CPUState) : PyResult :=
  tryE s (ram_read s (s.pc + 1)) fun b1 =>
  tryE s (pyGet s.registers (b1 &&& 0x07)) fun value =>
  .ok { s with output := s.output ++ [value] }

/-- `CPU.call`: push `pc + 2` (the decrement of `self.sp` here has no
`& 0xFF` mask, unlike `push`), then jump to the address held in the operand
register (read after the stack write). -/
def call (s : CPUState) : PyResult :=
  let return_addr := s.pc + 2
  tryE s (pyGet s.registers 7) fun sp0 =>
  tryE s (pySet s.registers 7 (sp0 - 1)) fun regs1 =>
  let s1 : CPUState := { s with registers := regs1 }
  tryE s1 (pyGet s1.registers 7) fun address_to_push_to =>
  tryE s1 (ram_write s1 address_to_push_to return_addr) fun ram1 =>
  let s2 : CPUState := { s1 with ram := ram1 }
  tryE s2 (ram_read s2 (s2.pc + 1)) fun reg_num =>
  tryE s2 (pyGet s2.registers reg_num) fun subroutine_addr =>
  .ok { s2 with pc := subroutine_addr }

/-- `CPU.ret`: pop the return address into `pc`, incrementing `sp`
(without any mask). -/
def ret (s : CPUState) : PyResult :=
  tryE s (pyGet s.registers 7) fun address_to_pop_from =>
  tryE s (ram_read s address_to_pop_from) fun return_addr =>
  tryE s (pySet s.registers 7 (address_to_pop_from + 1)) fun regs1 =>
  .ok { s with registers := regs1, pc := return_addr }

/-- `CPU.jmp`: `pc` := value held in the operand register. -/
def jmp (s : CPUState) : PyResult :=
  tryE s (ram_read s (s.pc + 1)) fun reg_num =>
  tryE s (pyGet s.registers reg_num) fun stored_addr =>
  .ok { s with pc := stored_addr }

/-- `CPU.jeq`: `if self.fl & 0x01 == True` — Python's `True` equals `1`,
so the test is `fl &&& 1 = 1`. -/
def jeq (s : CPUState) : PyResult :=
  if s.fl &&& 0x01 = 1 then
    tryE s (ram_read s (s.pc + 1)) fun reg_num =>
    tryE s (pyGet s.registers reg_num) fun stored_addr =>
    .ok { s with pc := stored_addr }
  else
    .ok s

/-- `CPU.jne`: `if self.fl & 0x01 == False` — Python's `False` equals `0`,
so the test is `fl &&& 1 = 0`. -/
def jne (s : CPUState) : PyResult :=
  if s.fl &&& 0x01 = 0 then
    tryE s (ram_read s (s.pc + 1)) fun reg_num =>
    tryE s (pyGet s.registers reg_num) fun stored_addr =>
    .ok { s with pc := stored_addr }
  else
    .ok s

/-- `CPU.cmp`: reads both operand bytes, then delegates to the ALU. -/
def cmp (s : CPUState) : PyResult :=
  tryE s (ram_read s (s.pc + 1)) fun reg_a =>
  tryE s (ram_read s (s.pc + 2)) fun reg_b =>
  alu s ("CMP") reg_a reg_b

/-- `CPU.add`: reads both operand bytes, then delegates to the ALU. -/
def add (s : CPUState) : PyResult :=
  tryE s (ram_read s (s.pc + 1)) fun reg_a =>
  tryE s (ram_read s (s.pc + 2)) fun reg_b =>
  alu s ("ADD") reg_a reg_b

/-- `CPU.mul`: `self.r0 = self.r0 * self.r1` — always the fixed registers
0 and 1, ignoring any operand bytes. -/
def mul (s : CPUState) : PyResult :=
  tryE s (pyGet s.registers 0) fun r0 =>
  tryE s (pyGet s.registers 1) fun r1 =>
  tryE s (pySet s.registers 0 (r0 * r1)) fun regs =>
  .ok { s with registers := regs }

/-- The `branch_table` built in `CPU.__init__`: a partial map from opcode
key to handler.  `instructions ("???")` (the value `0x00`) is never
registered. -/
def branch_table (key : Int) : Option (CPUState → PyResult) :=
  if key = instructions ("HLT") then some hlt
  else if key = instructions ("LDI") then some ldi
  else if key = instructions ("PUSH") then some push
  else if key = instructions ("POP") then some pop
  else if key = instructions ("PRN") then some prn
  else if key = instructions ("CALL") then some call
  else if key = instructions ("RET") then some ret
  else if key = instructions ("JMP") then some jmp
  else if key = instructions ("JEQ") then some jeq
  else if key = instructions ("JNE") then some jne
  else if key = instructions ("CMP") then some cmp
  else if key = instructions ("ADD") then some add
  else if key = instructions ("MUL") then some mul
  else none

/-- One iteration of the `while True` loop in `CPU.run`: fetch and mask the
instruction byte into `ir`, dispatch through `branch_table` (a missing key
raises `KeyError`, the illegal-instruction condition), then — unless the
opcode is CALL, RET or JMP — advance `pc` by one plus the top two bits of
the byte re-read at the *current* `pc` (which a jump handler may already
have redirected). -/
def step (s : CPUState) : PyResult :=
  tryE s (ram_read s s.pc) fun b =>
  let s0 : CPUState := { s with ir := b &&& 0x3F }
  match branch_table s0.ir with
  | none => .error (.illegalInstruction, s0)
  | some handler =>
    match handler s0 with
    | .error es => .error es
    | .ok s1 =>
      if s1.ir ≠ instructions ("CALL") ∧ s1.ir ≠ instructions ("RET") ∧
          s1.ir ≠ instructions ("JMP") then
        tryE s1 (ram_read s1 s1.pc) fun b1 =>
        .ok { s1 with pc := s1.pc + (b1 >>> (6 : Int)) + 1 }
      else
        .ok s1

/-- `CPU.run` with explicit fuel: `none` means the loop is still running
after `fuel` iterations; `some (e, s)` means iteration raised `e` (the only
way the loop ends) with machine state `s`. -/
def run : Nat → CPUState → Option (PyErr × CPUState)
  | 0, _ => none
  | fuel + 1, s =>
    match step s with
    | .error es => some es
    | .ok s1 => run fuel s1

/-- The machine built by `CPU.__init__`: 0xFF RAM cells (255, not 256 — the
source allocates `[0] * 0xFF`), eight registers, `registers[7] = 0xF4`. -/
def freshCPU : CPUState :=
  { ram := List.replicate 0xFF 0
    registers := (List.replicate 8 0).set 7 0xF4
    pc := 0
    ir := 0
    fl := 0
    output := [] }

/-- The effect of `CPU.load`'s RAM-writing loop for a program that fits in
memory: the bytes are deposited at addresses 0, 1, 2, …. -/
def loadProgram (program : List Int) (s : CPUState) : CPUState :=
  { s with ram := program ++ s.ram.drop program.length }

/-! ### Bitwise helper lemmas -/

theorem int_and_eq (x y : Int) : x &&& y = Int.land x y := rfl

theorem int_or_eq (x y : Int) : x ||| y = Int.lor x y := rfl

theorem int_not_eq (x : Int) : ~~~x = Int.lnot x := rfl

theorem int_testBit_negSucc (m i : Nat) : (Int.negSucc m).testBit i = !(Nat.testBit m i) := rfl

/-- Two integers with the same binary digits are equal. -/
theorem int_eq_of_testBit_eq {x y : Int} (h : ∀ i, Int.testBit x i = Int.testBit y i) :
    x = y := by
  have key : ∀ m n : Nat, (∀ i, Nat.testBit m i = !(Nat.testBit n i)) → False := by
    intro m n hmn
    have hm : Nat.testBit m (m + n + 1) = false :=
      Nat.testBit_lt_two_pow
        (lt_of_le_of_lt (Nat.le_add_right m (n + 1)) (Nat.lt_two_pow (m + n + 1)))
    have hn : Nat.testBit n (m + n + 1) = false :=
      Nat.testBit_lt_two_pow
        (lt_of_le_of_lt (by omega) (Nat.lt_two_pow (m + n + 1)))
    have := hmn (m + n + 1)
    rw [hm, hn] at this
    simp at this
  cases x with
  | ofNat m =>
    cases y with
    | ofNat n => exact congrArg Int.ofNat (Nat.eq_of_testBit_eq fun i => h i)
    | negSucc n => exact absurd (fun i => h i) fun hc => key m n hc
  | negSucc m =>
    cases y with
    | ofNat n => exact absurd (fun i => (h i).symm) fun hc => key n m hc
    | negSucc n =>
      refine congrArg Int.negSucc (Nat.eq_of_testBit_eq fun i => ?_)
      have hi := h i
      rw [int_testBit_negSucc, int_testBit_negSucc] at hi
      cases hb : Nat.testBit m i <;> cases hc : Nat.testBit n i <;> simp_all

theorem int_testBit_zero (i : Nat) : (0 : Int).testBit i = false := by
  show Nat.testBit 0 i = false
  simp

theorem int_testBit_one (i : Nat) : (1 : Int).testBit i = decide (i = 0) := by
  show Nat.testBit 1 i = decide (i = 0)
  rw [show (1 : Nat) = 2 ^ 1 - 1 by norm_num, Nat.testBit_two_pow_sub_one]
  simp [Nat.lt_one_iff]

theorem int_testBit_two (i : Nat) : (2 : Int).testBit i = decide (i = 1) := by
  show Nat.testBit 2 i = decide (i = 1)
  rw [show (2 : Nat) = 2 ^ 1 by norm_num, Nat.testBit_two_pow]
  simp [eq_comm]

theorem int_testBit_four (i : Nat) : (4 : Int).testBit i = decide (i = 2) := by
  show Nat.testBit 4 i = decide (i = 2)
  rw [show (4 : Nat) = 2 ^ 2 by norm_num, Nat.testBit_two_pow]
  simp [eq_comm]

theorem int_testBit_seven (i : Nat) : (7 : Int).testBit i = decide (i < 3) := by
  show Nat.testBit 7 i = decide (i < 3)
  rw [show (7 : Nat) = 2 ^ 3 - 1 by norm_num, Nat.testBit_two_pow_sub_one]

theorem int_testBit_255 (i : Nat) : (255 : Int).testBit i = decide (i < 8) := by
  show Nat.testBit 255 i = decide (i < 8)
  rw [show (255 : Nat) = 2 ^ 8 - 1 by norm_num, Nat.testBit_two_pow_sub_one]

theorem int_testBit_neg_one (i : Nat) : (-1 : Int).testBit i = true := by
  show (Int.negSucc 0).testBit i = true
  rw [int_testBit_negSucc]
  simp

/-- `x & 0xFF` leaves a value already in `[0, 255]` unchanged. -/
theorem land_255_of_range {x : Int} (h0 : 0 ≤ x) (h : x < 256) : x &&& 255 = x := by
  obtain ⟨n, rfl⟩ := Int.eq_ofNat_of_zero_le h0
  show ((Nat.land n 255 : Nat) : Int) = (n : Int)
  have hn : n < 256 := by exact_mod_cast h
  have : n &&& 255 = n % 256 := by
    rw [show (255 : Nat) = 2 ^ 8 - 1 by norm_num, Nat.and_pow_two_sub_one_eq_mod]
  rw [show Nat.land n 255 = n &&& 255 from rfl, this, Nat.mod_eq_of_lt hn]

theorem neg_one_land_255 : (-1 : Int) &&& 255 = 255 := by
  apply int_eq_of_testBit_eq
  intro i
  rw [int_and_eq, Int.testBit_land, int_testBit_neg_one, int_testBit_255]
  simp

/-! ### CMP flag-expression lemmas

`CPU.alu`'s CMP branch performs three sequential bit updates on `fl`.
The three lemmas below compute, for each outcome of the trichotomy, the
low three bits (`&&& 7`) and the Equal bit (`&&& 1`) of the resulting
flags value, for an arbitrary starting `fl`. -/

theorem cmp_fl_eq_case (fl : Int) :
    ((fl ||| 1) &&& ~~~(2 : Int)) &&& ~~~(4 : Int) &&& 7 = 1 ∧
      ((fl ||| 1) &&& ~~~(2 : Int)) &&& ~~~(4 : Int) &&& 1 = 1 := by
  constructor <;>
  · apply int_eq_of_testBit_eq
    intro i
    simp only [int_and_eq, int_or_eq, int_not_eq, Int.testBit_land, Int.testBit_lor,
      Int.testBit_lnot, int_testBit_zero, int_testBit_one, int_testBit_two, int_testBit_four,
      int_testBit_seven]
    rcases Nat.lt_or_ge i 3 with h | h
    · interval_cases i <;> simp
    · simp [show i ≠ 0 by omega, show i ≠ 1 by omega, show i ≠ 2 by omega,
        show ¬i < 3 by omega]

theorem cmp_fl_gt_case (fl : Int) :
    ((fl &&& ~~~(1 : Int)) ||| 2) &&& ~~~(4 : Int) &&& 7 = 2 ∧
      ((fl &&& ~~~(1 : Int)) ||| 2) &&& ~~~(4 : Int) &&& 1 = 0 := by
  constructor <;>
  · apply int_eq_of_testBit_eq
    intro i
    simp only [int_and_eq, int_or_eq, int_not_eq, Int.testBit_land, Int.testBit_lor,
      Int.testBit_lnot, int_testBit_zero, int_testBit_one, int_testBit_two, int_testBit_four,
      int_testBit_seven]
    rcases Nat.lt_or_ge i 3 with h | h
    · interval_cases i <;> simp
    · simp [show i ≠ 0 by omega, show i ≠ 1 by omega, show i ≠ 2 by omega,
        show ¬i < 3 by omega]

theorem cmp_fl_lt_case (fl : Int) :
    (((fl &&& ~~~(1 : Int)) &&& ~~~(2 : Int)) ||| 4) &&& 7 = 4 ∧
      (((fl &&& ~~~(1 : Int)) &&& ~~~(2 : Int)) ||| 4) &&& 1 = 0 := by
  constructor <;>
  · apply int_eq_of_testBit_eq
    intro i
    simp only [int_and_eq, int_or_eq, int_not_eq, Int.testBit_land, Int.testBit_lor,
      Int.testBit_lnot, int_testBit_zero, int_testBit_one, int_testBit_two, int_testBit_four,
      int_testBit_seven]
    rcases Nat.lt_or_ge i 3 with h | h
    · interval_cases i <;> simp
    · simp [show i ≠ 0 by omega, show i ≠ 1 by omega, show i ≠ 2 by omega,
        show ¬i < 3 by omega]

/-! ### List-access helper lemmas -/

theorem pyIdx_nonneg {len : Nat} {i : Int} (h0 : 0 ≤ i) (h : i < len) :
    pyIdx len i = some i.toNat := by
  unfold pyIdx
  rw [if_pos ⟨h0, h⟩]

theorem pyGet_eq_ok {l : List Int} {i : Int} (h0 : 0 ≤ i) (h : i < l.length) :
    pyGet l i = .ok (l.getD i.toNat 0) := by
  unfold pyGet
  rw [pyIdx_nonneg h0 h]

theorem pySet_eq_ok {l : List Int} {i : Int} (v : Int) (h0 : 0 ≤ i) (h : i < l.length) :
    pySet l i v = .ok (l.set i.toNat v) := by
  unfold pySet
  rw [pyIdx_nonneg h0 h]

theorem pyGet_eq_err {l : List Int} {i : Int} (h : (l.length : Int) ≤ i) :
    pyGet l i = .error .indexError := by
  unfold pyGet pyIdx
  rw [if_neg (by omega), if_neg (by omega)]

theorem pySet_eq_err {l : List Int} {i : Int} (v : Int) (h : (l.length : Int) ≤ i) :
    pySet l i v = .error .indexError := by
  unfold pySet pyIdx
  rw [if_neg (by omega), if_neg (by omega)]

theorem getD_set_ne (l : List Int) {m n : Nat} (v : Int) (h : m ≠ n) :
    (l.set m v).getD n 0 = l.getD n 0 := by
  rw [List.getD_eq_getElem?_getD, List.getD_eq_getElem?_getD, List.getElem?_set_ne h]

theorem getD_set_self (l : List Int) {n : Nat} (v : Int) (h : n < l.length) :
    (l.set n v).getD n 0 = v := by
  rw [List.getD_eq_getElem?_getD, List.getElem?_set_self h]
  rfl

theorem getD_set_self8 (n : Nat) {l : List Int} (v : Int) (hlen : l.length = 8)
    (hn : n < 8) : (l.set n v).getD n 0 = v :=
  getD_set_self l v (by rw [hlen]; exact hn)

theorem getD_set_ne8 (m n : Nat) {l : List Int} (v : Int) (h : m ≠ n) :
    (l.set m v).getD n 0 = l.getD n 0 :=
  getD_set_ne l v h

/-! ### Small-step reasoning helpers -/

theorem pyGet_reg7 {l : List Int} (h : l.length = 8) : pyGet l 7 = .ok (l.getD 7 0) := by
  rw [pyGet_eq_ok (by norm_num) (by rw [h]; norm_num)]
  rfl

theorem pySet_reg7 {l : List Int} (v : Int) (h : l.length = 8) :
    pySet l 7 v = .ok (l.set 7 v) := by
  rw [pySet_eq_ok _ (by norm_num) (by rw [h]; norm_num)]
  rfl

theorem pyGet_ok_getD {l : List Int} {i v : Int} (h0 : 0 ≤ i) (hlt : i < l.length)
    (h : pyGet l i = .ok v) : l.getD i.toNat 0 = v := by
  rw [pyGet_eq_ok h0 hlt] at h
  injection h

theorem tryE_ok (s : CPUState) (a : α) (k : α → PyResult) : tryE s (.ok a) k = k a := rfl

theorem tryE_err (s : CPUState) (e : PyErr) (k : α → PyResult) :
    tryE s (.error e) k = .error (e, s) := rfl

/-- `step` for an instruction whose handler succeeds and whose opcode is not
CALL/RET/JMP: the loop advances `pc` by one plus the top two bits of the
byte re-read at the handler's final `pc`. -/
theorem step_ok_advance (s : CPUState) {s1 : CPUState} {b k b1 : Int} {h : CPUState → PyResult}
    (hb : ram_read s s.pc = .ok b) (hk : b &&& 0x3F = k)
    (hbt : branch_table k = some h) (hh : h { s with ir := k } = .ok s1)
    (hir : s1.ir = k)
    (hcall : k ≠ instructions ("CALL")) (hret : k ≠ instructions ("RET"))
    (hjmp : k ≠ instructions ("JMP"))
    (hb1 : ram_read s1 s1.pc = .ok b1) :
    step s = .ok { s1 with pc := s1.pc + (b1 >>> (6 : Int)) + 1 } := by
  unfold step
  rw [hb, tryE_ok]
  simp only [hk, hbt, hh, hir]
  rw [if_pos ⟨hcall, hret, hjmp⟩, hb1, tryE_ok]

/-- `step` for CALL/RET/JMP: the handler's `pc` is final (no advance). -/
theorem step_ok_noadvance (s : CPUState) {s1 : CPUState} {b k : Int} {h : CPUState → PyResult}
    (hb : ram_read s s.pc = .ok b) (hk : b &&& 0x3F = k)
    (hbt : branch_table k = some h) (hh : h { s with ir := k } = .ok s1)
    (hir : s1.ir = k)
    (hredir : k = instructions ("CALL") ∨ k = instructions ("RET") ∨
      k = instructions ("JMP")) :
    step s = .ok s1 := by
  unfold step
  rw [hb, tryE_ok]
  simp only [hk, hbt, hh, hir]
  rw [if_neg (by tauto)]

/-- `step` when the dispatched handler raises. -/
theorem step_err {s : CPUState} {b k : Int} {h : CPUState → PyResult}
    {es : PyErr × CPUState}
    (hb : ram_read s s.pc = .ok b) (hk : b &&& 0x3F = k)
    (hbt : branch_table k = some h) (hh : h { s with ir := k } = .error es) :
    step s = .error es := by
  unfold step
  rw [hb, tryE_ok]
  simp only [hk, hbt, hh]

/-- Inversion: a `tryE` chain that ends in `.ok` went through `.ok`. -/
theorem tryE_eq_ok {s : CPUState} {x : Except PyErr α} {k : α → PyResult} {s' : CPUState}
    (h : tryE s x k = .ok s') : ∃ a, x = .ok a ∧ k a = .ok s' := by
  cases x with
  | error e => exact absurd h (by simp [tryE])
  | ok a => exact ⟨a, rfl, h⟩

/-! ### Claim C2 -/

/-- **C2.** Fetching an opcode with no registered handler — in particular
the all-zero opcode `instructions ("???") = 0x00` — makes the dispatch
raise the illegal-instruction condition (`KeyError`), which propagates to
the caller of `run`; the state carried by the exception differs from the
pre-instruction state only in `ir`, so registers, memory, flags and SP are
untouched by the failed dispatch. -/
theorem c2_illegal_opcode_halts_without_mutation (s : CPUState) (b : Int)
    (hb : ram_read s s.pc = .ok b)
    (hnone : branch_table (b &&& 0x3F) = none) :
    branch_table (instructions ("???")) = none ∧
      step s = .error (.illegalInstruction, { s with ir := b &&& 0x3F }) := by
  refine ⟨rfl, ?_⟩
  unfold step
  rw [hb, tryE_ok]
  simp only [hnone]

theorem c2_illegal_opcode_witness :
    branch_table (instructions ("???")) = none ∧
      step freshCPU = .error (.illegalInstruction, { freshCPU with ir := (0 : Int) &&& 0x3F }) :=
  c2_illegal_opcode_halts_without_mutation freshCPU 0 (by decide) rfl

/-! ### Claim C1 -/

/-- A machine whose Equal flag is set, about to execute `JEQ R0`
(`ram = [0x55, 0x00, …]`) with register 0 holding the jump target 3. -/
def jeqTakenState : CPUState :=
  { loadProgram [0x55, 0x00] freshCPU with
      fl := 1
      registers := [3, 0, 0, 0, 0, 0, 0, 0xF4] }

/-- **C1** (evaluation at the failing input).  The spec says a taken `JEQ`
skips the advance step, leaving `pc` equal to the operand register's value
(here 3).  In the code the advance-skip test in `CPU.run` names only CALL,
RET and JMP, so after the taken jump the loop still advances: `pc` becomes
`3 + (ram[3] >> 6) + 1 = 4`, not 3. -/
theorem c1_taken_jeq_still_advances :
    jeqTakenState.registers.getD 0 0 = 3 ∧ jeqTakenState.fl &&& 0x01 = 1 ∧
      (step jeqTakenState).map CPUState.pc = .ok 4 ∧
      (step jeqTakenState).map CPUState.pc ≠ .ok 3 := by
  decide

/-! ### Claim C9 -/

/-- The standard encoding of `LDI R0,8; LDI R1,9; MUL R0,R1; PRN R0; HLT`. -/
def progMul : List Int :=
  [0x82, 0x00, 0x08, 0x82, 0x01, 0x09, 0xA2, 0x00, 0x01, 0x47, 0x00, 0x01]

/-- The same program with garbage operand bytes (5, 6) on the `MUL`
instruction: `CPU.mul` ignores its operand bytes and always multiplies
registers 0 and 1. -/
def progMulJunkOperands : List Int :=
  [0x82, 0x00, 0x08, 0x82, 0x01, 0x09, 0xA2, 0x05, 0x06, 0x47, 0x00, 0x01]

/-- **C9.** Running the mul program from a fresh machine emits exactly one
output value, 72, and ends with the clean-halt condition (`SystemExit`
raised by `HLT`); the run is unchanged when the `MUL` instruction's operand
bytes are replaced by garbage, because `CPU.mul` always multiplies the
fixed registers 0 and 1. -/
theorem c9_mul_program_prints_72_and_halts :
    (run 6 (loadProgram progMul freshCPU)).map (fun es => (es.1, es.2.output)) =
        some (.systemExit, [72]) ∧
      (run 6 (loadProgram progMulJunkOperands freshCPU)).map (fun es => (es.1, es.2.output)) =
        some (.systemExit, [72]) := by
  decide

/-! ### Claim C3 -/

/-- A machine about to execute `ADD R0,R1` (`ram = [0xA0, 0x00, 0x01, …]`)
with register 0 holding 200 and register 1 holding 100. -/
def addOverflowState : CPUState :=
  { loadProgram [0xA0, 0x00, 0x01] freshCPU with
      registers := [200, 100, 0, 0, 0, 0, 0, 0xF4] }

/-- **C3** (counterexample to the claim as stated).  `ADD` with
`registers[0] = 200`, `registers[1] = 100` leaves 300 in register 0: the
result is not reduced modulo 256 (which would give 44) and is not below
256. -/
theorem c3_add_does_not_wrap :
    (add addOverflowState).map (fun s => s.registers.getD 0 0) = .ok 300 ∧
      ¬(300 : Int) < 256 ∧ ((200 + 100) % 256 : Int) = 44 := by
  decide

/-- **C3** (amended).  For valid operand register indices, `ADD` stores in
register `a` the plain integer sum of registers `a` and `b` — no modulo-256
wrap is applied (so the stored value can be ≥ 256, as the counterexample
shows) — and no other register is touched. -/
theorem c3_add_stores_exact_sum (s : CPUState) (a b : Int)
    (hlen : s.registers.length = 8)
    (ha : ram_read s (s.pc + 1) = .ok a) (hb : ram_read s (s.pc + 2) = .ok b)
    (ha0 : 0 ≤ a) (ha8 : a < 8) (hb0 : 0 ≤ b) (hb8 : b < 8) :
    add s = .ok
      { s with registers := (s.registers.set a.toNat
          (s.registers.getD a.toNat 0 + s.registers.getD b.toNat 0)) } := by
  have hA : a < (s.registers.length : Int) := by rw [hlen]; exact_mod_cast ha8
  have hB : b < (s.registers.length : Int) := by rw [hlen]; exact_mod_cast hb8
  unfold add
  rw [ha, tryE_ok, hb, tryE_ok]
  unfold alu
  rw [if_pos rfl]
  rw [pyGet_eq_ok ha0 hA, tryE_ok, pyGet_eq_ok hb0 hB, tryE_ok,
    pySet_eq_ok _ ha0 hA, tryE_ok]

theorem c3_add_stores_exact_sum_witness :
    add addOverflowState = .ok
      { addOverflowState with registers := (addOverflowState.registers.set (0 : Int).toNat
          (addOverflowState.registers.getD (0 : Int).toNat 0 +
            addOverflowState.registers.getD (1 : Int).toNat 0)) } :=
  c3_add_stores_exact_sum addOverflowState 0 1 (by decide) (by decide) (by decide)
    (by decide) (by decide) (by decide) (by decide)

/-! ### Claim C10 -/

/-- **C10.** `push` and `pop` index the register file with the raw,
unmasked operand byte read at `pc + 1`.  When that byte is 8 or more the
access misses the 8-slot register file and `IndexError` is raised: `push`
fails at the register-value read (its exception state has the RAM and every
register other than SP untouched), `pop` fails at the register write (its
exception state is exactly the pre-instruction state).  `prn`, which masks
the same byte with `& 0x07`, succeeds by contrast (as does `ldi`). -/
theorem c10_push_pop_unmasked_operand_errors (s : CPUState) (w v : Int)
    (hlen : s.registers.length = 8)
    (hw : ram_read s (s.pc + 1) = .ok w) (hw8 : 8 ≤ w)
    (hsp : ram_read s (s.registers.getD 7 0) = .ok v) :
    (∃ s1, push s = .error (.indexError, s1) ∧ s1.ram = s.ram ∧
        (∀ i : Nat, i < 7 → s1.registers.getD i 0 = s.registers.getD i 0)) ∧
      pop s = .error (.indexError, s) ∧ (∃ s2, prn s = .ok s2) := by
  have h7 : (7 : Int) < (s.registers.length : Int) := by rw [hlen]; norm_num
  have h70 : (0 : Int) ≤ 7 := by norm_num
  refine ⟨?_, ?_, ?_⟩
  · refine ⟨{ s with registers := s.registers.set 7 ((s.registers.getD 7 0 - 1) &&& 255) }, ?_, rfl, ?_⟩
    · unfold push
      rw [pyGet_eq_ok h70 h7, tryE_ok, pySet_eq_ok _ h70 h7]
      rw [tryE_ok]
      show tryE _ (ram_read s (s.pc + 1)) _ = _
      rw [hw, tryE_ok]
      have hlen1 : ((s.registers.set (7 : Int).toNat ((s.registers.getD (7 : Int).toNat 0 - 1) &&& 255)).length : Int) ≤ w := by
        rw [List.length_set, hlen]; exact hw8
      show tryE _ (pyGet _ w) _ = _
      rw [pyGet_eq_err hlen1, tryE_err]
      rfl
    · intro i hi
      show (s.registers.set (7 : Int).toNat _).getD i 0 = _
      exact getD_set_ne _ _ (by omega)
  · unfold pop
    rw [pyGet_eq_ok h70 h7, tryE_ok]
    show tryE _ (ram_read s (s.registers.getD (7 : Int).toNat 0)) _ = _
    rw [show ((7 : Int).toNat) = 7 from rfl, hsp, tryE_ok, hw, tryE_ok]
    have hlenw : ((s.registers.length : Int)) ≤ w := by rw [hlen]; exact hw8
    rw [pySet_eq_err _ hlenw, tryE_err]
  · have hw0 : 0 ≤ w := le_trans (by norm_num) hw8
    obtain ⟨n, rfl⟩ := Int.eq_ofNat_of_zero_le hw0
    have hmask0 : (0 : Int) ≤ (n : Int) &&& 7 := by
      show (0 : Int) ≤ ((n &&& 7 : Nat) : Int)
      exact_mod_cast Nat.zero_le _
    have hmask8 : ((n : Int) &&& 7) < (s.registers.length : Int) := by
      show ((n &&& 7 : Nat) : Int) < _
      rw [hlen]
      exact_mod_cast Nat.and_lt_two_pow n (by norm_num : (7 : Nat) < 2 ^ 3)
    refine ⟨{ s with output := (s.output ++ [s.registers.getD ((n : Int) &&& 7).toNat 0]) }, ?_⟩
    unfold prn
    rw [hw, tryE_ok, pyGet_eq_ok hmask0 hmask8, tryE_ok]

/-- A machine about to execute `PUSH R9` (operand byte 9 ≥ 8). -/
def rawOperandState : CPUState :=
  loadProgram [0x45, 0x09] freshCPU

theorem c10_unmasked_operand_witness :
    (∃ s1, push rawOperandState = .error (.indexError, s1) ∧ s1.ram = rawOperandState.ram ∧
        (∀ i : Nat, i < 7 → s1.registers.getD i 0 = rawOperandState.registers.getD i 0)) ∧
      pop rawOperandState = .error (.indexError, rawOperandState) ∧
      (∃ s2, prn rawOperandState = .ok s2) :=
  c10_push_pop_unmasked_operand_errors rawOperandState 9 0 (by decide) (by decide)
    (by decide) (by decide)

/-! ### Claim C4 -/

/-- A machine with `SP = 255`, about to execute `POP R0` / `RET`. -/
def spAt255State : CPUState :=
  { loadProgram [0x46, 0x00] freshCPU with registers := [0, 0, 0, 0, 0, 0, 0, 255] }

/-- **C4** (counterexample to the claim as stated).  The claim says POP's
(and RET's) post-increment wraps modulo 256 when SP is incremented above
255.  With `SP = 255` no wrapped increment ever happens: both `pop` and
`ret` first read `Memory[SP]`, and index 255 is already outside the
255-cell RAM (`[0] * 0xFF`), so they raise `IndexError` with the state
unchanged — SP is neither incremented nor wrapped. -/
theorem c4_pop_at_255_does_not_wrap :
    pop spAt255State = .error (.indexError, spAt255State) ∧
      ret spAt255State = .error (.indexError, spAt255State) := by
  decide

/-- **C4** (amended).  `push`'s pre-decrement masks SP back into
`[0, 255]` (value `(SP - 1) mod 256`), but `pop`'s and `ret`'s
post-increment applies no mask at all: a completed `pop` (of a
general-purpose register) or `ret` leaves SP exactly one larger than
before, with no reduction modulo 256. -/
theorem c4_sp_discipline :
    (∀ s s' : CPUState, s.registers.length = 8 →
        0 ≤ s.registers.getD 7 0 → s.registers.getD 7 0 ≤ 255 →
        push s = .ok s' →
        s'.registers.getD 7 0 = (s.registers.getD 7 0 - 1) % 256 ∧
          0 ≤ s'.registers.getD 7 0 ∧ s'.registers.getD 7 0 ≤ 255) ∧
      (∀ s s' : CPUState, ∀ w : Int, s.registers.length = 8 →
        ram_read s (s.pc + 1) = .ok w → 0 ≤ w → w < 7 →
        pop s = .ok s' →
        s'.registers.getD 7 0 = s.registers.getD 7 0 + 1) ∧
      (∀ s s' : CPUState, s.registers.length = 8 →
        ret s = .ok s' →
        s'.registers.getD 7 0 = s.registers.getD 7 0 + 1) := by
  refine ⟨?_, ?_, ?_⟩
  · intro s s' hlen h0 h255 hok
    have h7 : (7 : Int) < (s.registers.length : Int) := by rw [hlen]; norm_num
    unfold push at hok
    rw [pyGet_eq_ok (by norm_num : (0 : Int) ≤ 7) h7, tryE_ok,
      pySet_eq_ok _ (by norm_num : (0 : Int) ≤ 7) h7, tryE_ok] at hok
    obtain ⟨b1, hX1, hok⟩ := tryE_eq_ok hok
    obtain ⟨b2, hX2, hok⟩ := tryE_eq_ok hok
    obtain ⟨b3, hX3, hok⟩ := tryE_eq_ok hok
    obtain ⟨b4, hX4, hok⟩ := tryE_eq_ok hok
    injection hok with hok
    have hregs : s'.registers = s.registers.set 7 ((s.registers.getD 7 0 - 1) &&& 255) := by
      rw [← hok]
      rfl
    rw [hregs, getD_set_self _ _ (by rw [hlen]; norm_num)]
    by_cases hz : s.registers.getD 7 0 = 0
    · rw [hz, show ((0 : Int) - 1) = -1 by norm_num, neg_one_land_255]
      decide
    · rw [land_255_of_range (by omega) (by omega)]
      rw [Int.emod_eq_of_lt (by omega) (by omega)]
      omega
  · intro s s' w hlen hw hw0 hw7 hok
    have h7 : (7 : Int) < (s.registers.length : Int) := by rw [hlen]; norm_num
    have hwl : w < (s.registers.length : Int) := by rw [hlen]; omega
    unfold pop at hok
    simp only [pyGet_eq_ok (by norm_num : (0 : Int) ≤ 7) h7, tryE_ok] at hok
    obtain ⟨b1, hX1, hok⟩ := tryE_eq_ok hok
    simp only [hw, tryE_ok, pySet_eq_ok _ hw0 hwl] at hok
    simp only [pyGet_eq_ok (by norm_num : (0 : Int) ≤ 7)
        (by rw [List.length_set]; exact h7 : (7 : Int) < ((s.registers.set w.toNat b1).length : Int)),
      tryE_ok] at hok
    simp only [pySet_eq_ok _ (by norm_num : (0 : Int) ≤ 7)
        (by rw [List.length_set]; exact h7 : (7 : Int) < ((s.registers.set w.toNat b1).length : Int)),
      tryE_ok] at hok
    injection hok with hok
    have hregs : s'.registers = (s.registers.set w.toNat b1).set 7
        ((s.registers.set w.toNat b1).getD 7 0 + 1) := by
      rw [← hok]
      rfl
    rw [hregs, getD_set_self _ _ (by rw [List.length_set, hlen]; norm_num),
      getD_set_ne _ _ (by omega)]
  · intro s s' hlen hok
    have h7 : (7 : Int) < (s.registers.length : Int) := by rw [hlen]; norm_num
    unfold ret at hok
    simp only [pyGet_eq_ok (by norm_num : (0 : Int) ≤ 7) h7, tryE_ok] at hok
    obtain ⟨b1, hX1, hok⟩ := tryE_eq_ok hok
    simp only [pySet_eq_ok _ (by norm_num : (0 : Int) ≤ 7) h7, tryE_ok] at hok
    injection hok with hok
    have hregs : s'.registers = s.registers.set 7 (s.registers.getD 7 0 + 1) := by
      rw [← hok]
      rfl
    rw [hregs, getD_set_self _ _ (by rw [hlen]; norm_num)]

def c4PushState : CPUState := loadProgram [0x45, 0x00] freshCPU

def c4PushResult : CPUState :=
  { c4PushState with registers := [0, 0, 0, 0, 0, 0, 0, 243]
                     ram := (c4PushState.ram.set 243 0) }

def c4PopState : CPUState :=
  { loadProgram [0x46, 0x00] freshCPU with registers := [0, 0, 0, 0, 0, 0, 0, 100] }

def c4PopResult : CPUState :=
  { c4PopState with registers := [0, 0, 0, 0, 0, 0, 0, 101] }

def c4RetState : CPUState := c4PopState

def c4RetResult : CPUState :=
  { c4RetState with registers := [0, 0, 0, 0, 0, 0, 0, 101], pc := 0 }

theorem c4_sp_discipline_witness :
    (c4PushResult.registers.getD 7 0 = (c4PushState.registers.getD 7 0 - 1) % 256 ∧
        0 ≤ c4PushResult.registers.getD 7 0 ∧ c4PushResult.registers.getD 7 0 ≤ 255) ∧
      (c4PopResult.registers.getD 7 0 = c4PopState.registers.getD 7 0 + 1) ∧
      (c4RetResult.registers.getD 7 0 = c4RetState.registers.getD 7 0 + 1) :=
  ⟨c4_sp_discipline.1 c4PushState c4PushResult (by decide) (by decide) (by decide) (by decide),
   c4_sp_discipline.2.1 c4PopState c4PopResult 0 (by decide) (by decide) (by decide)
     (by decide) (by decide),
   c4_sp_discipline.2.2 c4RetState c4RetResult (by decide) (by decide)⟩

/-! ### CMP flags: handler characterizations -/

/-- The flags value produced by `CPU.alu`'s CMP branch: the three
sequential conditional bit updates of the source, as a pure function. -/
def cmpFlags (fl va vb : Int) : Int :=
  let fl1 := if va = vb then fl ||| 0x01 else fl &&& ~~~(0x01 : Int)
  let fl2 := if va > vb then fl1 ||| 0x02 else fl1 &&& ~~~(0x02 : Int)
  let fl3 := if va < vb then fl2 ||| 0x04 else fl2 &&& ~~~(0x04 : Int)
  fl3

theorem alu_cmp_ok (s : CPUState) (a b va vb : Int)
    (hva : pyGet s.registers a = .ok va) (hvb : pyGet s.registers b = .ok vb) :
    alu s ("CMP") a b = .ok { s with fl := cmpFlags s.fl va vb } := by
  unfold alu cmpFlags
  rw [if_neg (by decide : ¬("CMP" : String) = "ADD"), if_pos rfl, hva, tryE_ok, hvb, tryE_ok]

/-- The Equal/Greater/Less bits of `cmpFlags`, by trichotomy. -/
theorem cmpFlags_bits (fl va vb : Int) :
    (va = vb → cmpFlags fl va vb &&& 7 = 1 ∧ cmpFlags fl va vb &&& 1 = 1) ∧
      (va > vb → cmpFlags fl va vb &&& 7 = 2 ∧ cmpFlags fl va vb &&& 1 = 0) ∧
      (va < vb → cmpFlags fl va vb &&& 7 = 4 ∧ cmpFlags fl va vb &&& 1 = 0) := by
  refine ⟨?_, ?_, ?_⟩ <;> intro h <;> unfold cmpFlags
  · simp only [if_pos h, if_neg (show ¬va > vb by omega), if_neg (show ¬va < vb by omega)]
    exact cmp_fl_eq_case fl
  · simp only [if_neg (show ¬va = vb by omega), if_pos h, if_neg (show ¬va < vb by omega)]
    exact cmp_fl_gt_case fl
  · simp only [if_neg (show ¬va = vb by omega), if_neg (show ¬va > vb by omega), if_pos h]
    exact cmp_fl_lt_case fl

theorem cmp_ok (u : CPUState) (a b va vb : Int)
    (hA : ram_read u (u.pc + 1) = .ok a) (hB : ram_read u (u.pc + 2) = .ok b)
    (hva : pyGet u.registers a = .ok va) (hvb : pyGet u.registers b = .ok vb) :
    cmp u = .ok { u with fl := cmpFlags u.fl va vb } := by
  unfold cmp
  rw [hA, tryE_ok, hB, tryE_ok]
  exact alu_cmp_ok u a b va vb hva hvb

theorem jeq_taken {u : CPUState} {j t : Int} (hbit : u.fl &&& 0x01 = 1)
    (hj : ram_read u (u.pc + 1) = .ok j) (ht : pyGet u.registers j = .ok t) :
    jeq u = .ok { u with pc := t } := by
  unfold jeq
  rw [if_pos hbit, hj, tryE_ok, ht, tryE_ok]

theorem jeq_not_taken {u : CPUState} (hbit : ¬u.fl &&& 0x01 = 1) : jeq u = .ok u := by
  unfold jeq
  rw [if_neg hbit]

theorem jne_taken {u : CPUState} {j t : Int} (hbit : u.fl &&& 0x01 = 0)
    (hj : ram_read u (u.pc + 1) = .ok j) (ht : pyGet u.registers j = .ok t) :
    jne u = .ok { u with pc := t } := by
  unfold jne
  rw [if_pos hbit, hj, tryE_ok, ht, tryE_ok]

theorem jne_not_taken {u : CPUState} (hbit : ¬u.fl &&& 0x01 = 0) : jne u = .ok u := by
  unfold jne
  rw [if_neg hbit]

/-! ### Claim C7 -/

/-- **C7.** For every pair of operand register values, the CMP ALU
operation succeeds, changing only the flags field (one atomic state
update), and the resulting flags have exactly one of the low three bits
set: `fl &&& 7` is exactly 1 (Equal, iff the values are equal), 2
(Greater, iff strictly greater) or 4 (Less, iff strictly less) — the other
two of the three bits are cleared in each case. -/
theorem c7_cmp_sets_exactly_one_flag (s : CPUState) (a b va vb : Int)
    (hva : pyGet s.registers a = .ok va) (hvb : pyGet s.registers b = .ok vb) :
    alu s ("CMP") a b = .ok { s with fl := cmpFlags s.fl va vb } ∧
      (cmpFlags s.fl va vb &&& 7 = 1 ∨ cmpFlags s.fl va vb &&& 7 = 2 ∨
        cmpFlags s.fl va vb &&& 7 = 4) ∧
      (cmpFlags s.fl va vb &&& 7 = 1 ↔ va = vb) ∧
      (cmpFlags s.fl va vb &&& 7 = 2 ↔ va > vb) ∧
      (cmpFlags s.fl va vb &&& 7 = 4 ↔ va < vb) := by
  refine ⟨alu_cmp_ok s a b va vb hva hvb, ?_⟩
  rcases lt_trichotomy va vb with hlt | heq | hgt
  · have h := (cmpFlags_bits s.fl va vb).2.2 hlt
    refine ⟨Or.inr (Or.inr h.1), ?_, ?_, ?_⟩ <;> rw [h.1]
    · exact iff_of_false (by omega) (by omega)
    · exact iff_of_false (by omega) (by omega)
    · exact iff_of_true rfl hlt
  · have h := (cmpFlags_bits s.fl va vb).1 heq
    refine ⟨Or.inl h.1, ?_, ?_, ?_⟩ <;> rw [h.1]
    · exact iff_of_true rfl heq
    · exact iff_of_false (by omega) (by omega)
    · exact iff_of_false (by omega) (by omega)
  · have h := (cmpFlags_bits s.fl va vb).2.1 hgt
    refine ⟨Or.inr (Or.inl h.1), ?_, ?_, ?_⟩ <;> rw [h.1]
    · exact iff_of_false (by omega) (by omega)
    · exact iff_of_true rfl hgt
    · exact iff_of_false (by omega) (by omega)

/-- Two equal register values to compare (registers 0 and 1 of this state
hold 5 and 5). -/
def cmpEqState : CPUState :=
  { loadProgram [0xA7, 0x00, 0x01] freshCPU with
      registers := [5, 5, 0, 0, 0, 0, 0, 0xF4] }

theorem c7_cmp_witness :
    alu cmpEqState ("CMP") 0 1 = .ok { cmpEqState with fl := cmpFlags cmpEqState.fl 5 5 } ∧
      (cmpFlags cmpEqState.fl 5 5 &&& 7 = 1 ∨ cmpFlags cmpEqState.fl 5 5 &&& 7 = 2 ∨
        cmpFlags cmpEqState.fl 5 5 &&& 7 = 4) ∧
      (cmpFlags cmpEqState.fl 5 5 &&& 7 = 1 ↔ (5 : Int) = 5) ∧
      (cmpFlags cmpEqState.fl 5 5 &&& 7 = 2 ↔ (5 : Int) > 5) ∧
      (cmpFlags cmpEqState.fl 5 5 &&& 7 = 4 ↔ (5 : Int) < 5) :=
  c7_cmp_sets_exactly_one_flag cmpEqState 0 1 5 5 (by decide) (by decide)

/-! ### Claim C8 -/

/-- **C8.** Executing `CMP a, b` (one full loop iteration: the byte 0xA7
has two operands, so `pc` advances by 3) and then handing the next state to
`jeq` / `jne`: `jeq` redirects `pc` to the value held in its operand
register exactly when the compared register values were equal, and
otherwise leaves the state unchanged; `jne` does the reverse. -/
theorem c8_cmp_then_jeq_jne (s : CPUState) (a b va vb j t : Int)
    (hfetch : ram_read s s.pc = .ok 0xA7)
    (hA : ram_read s (s.pc + 1) = .ok a) (hB : ram_read s (s.pc + 2) = .ok b)
    (hva : pyGet s.registers a = .ok va) (hvb : pyGet s.registers b = .ok vb)
    (hJ : pyGet s.ram (s.pc + 4) = .ok j) (ht : pyGet s.registers j = .ok t) :
    ∃ s1, step s = .ok s1 ∧ s1.pc = s.pc + 3 ∧ s1.registers = s.registers ∧
      s1.ram = s.ram ∧ s1.fl = cmpFlags s.fl va vb ∧
      (va = vb → jeq s1 = .ok { s1 with pc := t } ∧ jne s1 = .ok s1) ∧
      (va ≠ vb → jne s1 = .ok { s1 with pc := t } ∧ jeq s1 = .ok s1) := by
  have hh : cmp { s with ir := (39 : Int) } =
      .ok { s with ir := 39, fl := cmpFlags s.fl va vb } :=
    cmp_ok { s with ir := (39 : Int) } a b va vb (by exact hA) (by exact hB)
      (by exact hva) (by exact hvb)
  have hstep : step s = .ok { s with ir := 39, fl := cmpFlags s.fl va vb, pc := s.pc + 3 } := by
    have h := step_ok_advance s hfetch (by decide : (0xA7 : Int) &&& 0x3F = 39)
      (by rfl : branch_table (39 : Int) = some cmp) hh rfl
      (by decide) (by decide) (by decide) (by exact hfetch)
    rw [h, show ((0xA7 : Int) >>> (6 : Int)) = 2 from by decide]
    simp only [Except.ok.injEq, CPUState.mk.injEq, and_true, true_and]
    omega
  refine ⟨_, hstep, rfl, rfl, rfl, rfl, ?_, ?_⟩
  · intro heq
    have hbit : cmpFlags s.fl va vb &&& 1 = 1 := ((cmpFlags_bits s.fl va vb).1 heq).2
    have hbit0 : ¬cmpFlags s.fl va vb &&& 1 = 0 := by omega
    have hj : pyGet s.ram (s.pc + 3 + 1) = .ok j := by
      rw [show s.pc + 3 + 1 = s.pc + 4 from by omega]
      exact hJ
    exact ⟨jeq_taken (by exact hbit) (by exact hj) (by exact ht),
      jne_not_taken (by exact hbit0)⟩
  · intro hne
    have hbit : cmpFlags s.fl va vb &&& 1 = 0 := by
      rcases lt_trichotomy va vb with h | h | h
      · exact ((cmpFlags_bits s.fl va vb).2.2 h).2
      · exact absurd h hne
      · exact ((cmpFlags_bits s.fl va vb).2.1 h).2
    have hbit1 : ¬cmpFlags s.fl va vb &&& 1 = 1 := by omega
    have hj : pyGet s.ram (s.pc + 3 + 1) = .ok j := by
      rw [show s.pc + 3 + 1 = s.pc + 4 from by omega]
      exact hJ
    exact ⟨jne_taken (by exact hbit) (by exact hj) (by exact ht),
      jeq_not_taken (by exact hbit1)⟩

/-- `CMP R0,R1; JEQ R2` with registers 0 and 1 both 5 and register 2
holding the jump target 20. -/
def cmpJeqState : CPUState :=
  { loadProgram [0xA7, 0x00, 0x01, 0x55, 0x02] freshCPU with
      registers := [5, 5, 20, 0, 0, 0, 0, 0xF4] }

theorem c8_cmp_then_jeq_jne_witness :
    ∃ s1, step cmpJeqState = .ok s1 ∧ s1.pc = cmpJeqState.pc + 3 ∧
      s1.registers = cmpJeqState.registers ∧ s1.ram = cmpJeqState.ram ∧
      s1.fl = cmpFlags cmpJeqState.fl 5 5 ∧
      ((5 : Int) = 5 → jeq s1 = .ok { s1 with pc := 20 } ∧ jne s1 = .ok s1) ∧
      ((5 : Int) ≠ 5 → jne s1 = .ok { s1 with pc := 20 } ∧ jeq s1 = .ok s1) :=
  c8_cmp_then_jeq_jne cmpJeqState 0 1 5 5 2 20 (by decide) (by decide) (by decide)
    (by decide) (by decide) (by decide) (by decide)

/-! ### Claim C6 -/

/-- Characterization of a successful `call`: SP is decremented (no mask),
`pc + 2` is written at the new SP, and `pc` is set to the value of the
operand register (a general-purpose register, read after the SP update). -/
theorem call_ok (u : CPUState) (σ r t : Int)
    (hlenr : u.registers.length = 8) (hlenm : u.ram.length = 255)
    (hsp : u.registers.getD 7 0 = σ) (hσ1 : 1 ≤ σ) (hσ2 : σ ≤ 255)
    (hpc0 : 0 ≤ u.pc) (hpcB : u.pc + 1 < 255)
    (hne1 : σ - 1 ≠ u.pc + 1)
    (hr : pyGet u.ram (u.pc + 1) = .ok r) (hr0 : 0 ≤ r) (hr7 : r < 7)
    (ht : u.registers.getD r.toNat 0 = t) :
    call u = .ok
      { u with
        registers := (u.registers.set 7 (σ - 1))
        ram := (u.ram.set (σ - 1).toNat (u.pc + 2))
        pc := t } := by
  have hrD : u.ram.getD (u.pc + 1).toNat 0 = r :=
    pyGet_ok_getD (by omega) (by omega) hr
  unfold call
  simp only [pyGet_reg7 hlenr, tryE_ok, hsp, pySet_reg7 _ hlenr]
  simp only [pyGet_reg7 (show (u.registers.set 7 (σ - 1)).length = 8 by
    rw [List.length_set]; exact hlenr), tryE_ok,
    getD_set_self u.registers (σ - 1) (show (7 : Nat) < u.registers.length by
      rw [hlenr]; norm_num)]
  simp only [ram_write, pySet_eq_ok _ (by omega : (0 : Int) ≤ σ - 1)
    (by rw [hlenm]; omega : σ - 1 < (u.ram.length : Int)), tryE_ok]
  simp only [ram_read,
    pyGet_eq_ok (by omega : (0 : Int) ≤ u.pc + 1)
      (by rw [List.length_set, hlenm]; omega :
        u.pc + 1 < ((u.ram.set (σ - 1).toNat (u.pc + 2)).length : Int)),
    tryE_ok, getD_set_ne u.ram _ (by omega : (σ - 1).toNat ≠ (u.pc + 1).toNat), hrD]
  simp only [pyGet_eq_ok hr0 (by rw [List.length_set, hlenr]; omega :
      r < ((u.registers.set 7 (σ - 1)).length : Int)), tryE_ok,
    getD_set_ne u.registers _ (by omega : (7 : Nat) ≠ r.toNat), ht]

/-- Characterization of a successful `ret`: the value at `Memory[SP]`
becomes `pc` verbatim and SP is incremented (no mask). -/
theorem ret_ok (u : CPUState) (v : Int)
    (hlenr : u.registers.length = 8)
    (hv : pyGet u.ram (u.registers.getD 7 0) = .ok v) :
    ret u = .ok
      { u with
        registers := (u.registers.set 7 (u.registers.getD 7 0 + 1))
        pc := v } := by
  unfold ret
  simp only [pyGet_reg7 hlenr, tryE_ok, ram_read, hv, pySet_reg7 _ hlenr]

/-- **C6.**  First part: a loop iteration fetching `CALL r` (byte `0x50`)
at `pc = p` pushes the return address `p + 2` at the decremented SP and
transfers control to the address held in register `r`, skipping the
advance step.  Second part: a loop iteration fetching `RET` (byte `0x11`)
in any state whose stack top is undisturbed pops `Memory[SP]` into `pc`
verbatim — again with no advance — so a subroutine that reaches its `RET`
with the pushed value intact returns with `pc = p + 2` exactly. -/
theorem c6_call_pushes_and_ret_returns :
    (∀ (s : CPUState) (σ r t : Int), s.registers.length = 8 → s.ram.length = 255 →
        s.registers.getD 7 0 = σ → 1 ≤ σ → σ ≤ 255 →
        0 ≤ s.pc → s.pc + 1 < 255 → σ - 1 ≠ s.pc + 1 →
        ram_read s s.pc = .ok 0x50 →
        pyGet s.ram (s.pc + 1) = .ok r → 0 ≤ r → r < 7 →
        s.registers.getD r.toNat 0 = t →
        ∃ s1, step s = .ok s1 ∧ s1.pc = t ∧ s1.registers.getD 7 0 = σ - 1 ∧
          pyGet s1.ram (σ - 1) = .ok (s.pc + 2)) ∧
      (∀ (u : CPUState) (v : Int), u.registers.length = 8 →
        ram_read u u.pc = .ok 0x11 →
        pyGet u.ram (u.registers.getD 7 0) = .ok v →
        ∃ u1, step u = .ok u1 ∧ u1.pc = v ∧
          u1.registers.getD 7 0 = u.registers.getD 7 0 + 1) := by
  constructor
  · intro s σ r t hlenr hlenm hsp hσ1 hσ2 hpc0 hpcB hne1 hfetch hr hr0 hr7 ht
    have hh : call { s with ir := (16 : Int) } = .ok
        { s with
          ir := 16
          registers := (s.registers.set 7 (σ - 1))
          ram := (s.ram.set (σ - 1).toNat (s.pc + 2))
          pc := t } :=
      call_ok { s with ir := (16 : Int) } σ r t (by exact hlenr) (by exact hlenm)
        (by exact hsp) hσ1 hσ2 (by exact hpc0) (by exact hpcB) (by exact hne1)
        (by exact hr) hr0 hr7 (by exact ht)
    have hstep : step s = .ok
        { s with
          ir := 16
          registers := (s.registers.set 7 (σ - 1))
          ram := (s.ram.set (σ - 1).toNat (s.pc + 2))
          pc := t } :=
      step_ok_noadvance s hfetch (by decide : (0x50 : Int) &&& 0x3F = 16)
        (by rfl : branch_table (16 : Int) = some call) hh rfl (Or.inl (by decide))
    refine ⟨_, hstep, rfl, ?_, ?_⟩
    · show (s.registers.set 7 (σ - 1)).getD 7 0 = σ - 1
      exact getD_set_self _ _ (by rw [hlenr]; norm_num)
    · show pyGet (s.ram.set (σ - 1).toNat (s.pc + 2)) (σ - 1) = .ok (s.pc + 2)
      rw [pyGet_eq_ok (by omega) (by rw [List.length_set]; omega)]
      rw [getD_set_self _ _ (by omega)]
  · intro u v hlenr hfetch hv
    have hh : ret { u with ir := (17 : Int) } = .ok
        { u with
          ir := 17
          registers := (u.registers.set 7 (u.registers.getD 7 0 + 1))
          pc := v } :=
      ret_ok { u with ir := (17 : Int) } v (by exact hlenr) (by exact hv)
    have hstep : step u = .ok
        { u with
          ir := 17
          registers := (u.registers.set 7 (u.registers.getD 7 0 + 1))
          pc := v } :=
      step_ok_noadvance u hfetch (by decide : (0x11 : Int) &&& 0x3F = 17)
        (by rfl : branch_table (17 : Int) = some ret) hh rfl (Or.inr (Or.inl (by decide)))
    refine ⟨_, hstep, rfl, ?_⟩
    show (u.registers.set 7 (u.registers.getD 7 0 + 1)).getD 7 0 = _
    exact getD_set_self _ _ (by rw [hlenr]; norm_num)

/-- `CALL R2` with register 2 holding 10 and `RET` (byte 0x11) at
address 10. -/
def c6CallState : CPUState :=
  { loadProgram [0x50, 0x02, 0, 0, 0, 0, 0, 0, 0, 0, 0x11] freshCPU with
      registers := [0, 0, 10, 0, 0, 0, 0, 0xF4] }

/-- A machine about to execute `RET` with `SP = 100` (`Memory[100] = 0`). -/
def c6RetState : CPUState :=
  { loadProgram [0x11] freshCPU with registers := [0, 0, 0, 0, 0, 0, 0, 100] }

theorem c6_call_ret_witness :
    (∃ s1, step c6CallState = .ok s1 ∧ s1.pc = 10 ∧
        s1.registers.getD 7 0 = 244 - 1 ∧
        pyGet s1.ram (244 - 1) = .ok (c6CallState.pc + 2)) ∧
      (∃ u1, step c6RetState = .ok u1 ∧ u1.pc = 0 ∧
        u1.registers.getD 7 0 = c6RetState.registers.getD 7 0 + 1) :=
  ⟨c6_call_pushes_and_ret_returns.1 c6CallState 244 2 10 (by decide) (by decide)
      (by decide) (by decide) (by decide) (by decide) (by decide) (by decide)
      (by decide) (by decide) (by decide) (by decide) (by decide),
   c6_call_pushes_and_ret_returns.2 c6RetState 0 (by decide) (by decide) (by decide)⟩

/-! ### Claim C5 -/

/-- Characterization of a successful `push`: SP is set to the masked
decrement `σ'`, and the value of the operand register — read *after* the SP
update — is written at `Memory[σ']`. -/
theorem push_ok (u : CPUState) (σ σ' r : Int)
    (hlenr : u.registers.length = 8)
    (hsp : u.registers.getD 7 0 = σ) (hmask : (σ - 1) &&& 255 = σ')
    (hσ0 : 0 ≤ σ') (hσB : σ' < (u.ram.length : Int))
    (hr : pyGet u.ram (u.pc + 1) = .ok r) (hr0 : 0 ≤ r) (hr8 : r < 8) :
    push u = .ok
      { u with
        registers := (u.registers.set 7 σ')
        ram := (u.ram.set σ'.toNat ((u.registers.set 7 σ').getD r.toNat 0)) } := by
  unfold push
  simp only [pyGet_reg7 hlenr, tryE_ok, hsp, hmask, pySet_reg7 _ hlenr]
  simp only [ram_read, hr, tryE_ok]
  simp only [pyGet_eq_ok hr0 (show r < ((u.registers.set 7 σ').length : Int) by
    rw [List.length_set, hlenr]; omega), tryE_ok]
  simp only [pyGet_reg7 (show (u.registers.set 7 σ').length = 8 by
    rw [List.length_set]; exact hlenr), tryE_ok,
    getD_set_self u.registers σ' (show (7 : Nat) < u.registers.length by
      rw [hlenr]; norm_num)]
  simp only [ram_write, pySet_eq_ok _ hσ0 hσB, tryE_ok]

/-- Characterization of a successful `pop`: `Memory[SP]` is stored in the
operand register, then SP — re-read after that store — is incremented. -/
theorem pop_ok (u : CPUState) (v r : Int)
    (hlenr : u.registers.length = 8)
    (hv : pyGet u.ram (u.registers.getD 7 0) = .ok v)
    (hr : pyGet u.ram (u.pc + 1) = .ok r) (hr0 : 0 ≤ r) (hr8 : r < 8) :
    pop u = .ok
      { u with registers := ((u.registers.set r.toNat v).set 7
          ((u.registers.set r.toNat v).getD 7 0 + 1)) } := by
  unfold pop
  simp only [pyGet_reg7 hlenr, tryE_ok, ram_read, hv, hr]
  simp only [pySet_eq_ok _ hr0 (show r < (u.registers.length : Int) by
    rw [hlenr]; omega), tryE_ok]
  simp only [pyGet_reg7 (show (u.registers.set r.toNat v).length = 8 by
    rw [List.length_set]; exact hlenr), tryE_ok]
  simp only [pySet_reg7 _ (show (u.registers.set r.toNat v).length = 8 by
    rw [List.length_set]; exact hlenr), tryE_ok]

theorem run_of_step_err {s : CPUState} {es : PyErr × CPUState} (n : Nat)
    (h : step s = .error es) : run (n + 1) s = some es := by
  unfold run
  rw [h]

/-- `PUSH R0; POP R0` with `SP = 0` and register 0 holding 42. -/
def pushPopSp0State : CPUState :=
  { loadProgram [0x45, 0x00, 0x46, 0x00] freshCPU with
      registers := [42, 0, 0, 0, 0, 0, 0, 0] }

/-- **C5** (counterexample to the claim as stated).  At `SP = 0` the
PUSH/POP pair does not restore anything: PUSH's pre-decrement wraps SP to
255, and writing `Memory[255]` is already out of the 255-cell RAM, so the
sequence dies with `IndexError` on the first instruction instead of
completing with the register and SP restored. -/
theorem c5_push_pop_at_sp0_fails :
    (run 2 pushPopSp0State).map Prod.fst = some PyErr.indexError := by
  have hmask : ((0 : Int) - 1) &&& 255 = 255 := by
    rw [show ((0 : Int) - 1) = -1 from by norm_num]
    exact neg_one_land_255
  have hpush : push { pushPopSp0State with ir := (5 : Int) } = .error (.indexError,
      { pushPopSp0State with ir := 5, registers := [42, 0, 0, 0, 0, 0, 0, 255] }) := by
    unfold push
    rw [show pyGet ({ pushPopSp0State with ir := (5 : Int) } : CPUState).registers 7 = .ok 0
      from by decide]
    simp only [tryE_ok]
    rw [hmask]
    decide
  have hstep : step pushPopSp0State = .error (.indexError,
      { pushPopSp0State with ir := 5, registers := [42, 0, 0, 0, 0, 0, 0, 255] }) :=
    step_err (by decide : ram_read pushPopSp0State pushPopSp0State.pc = .ok 0x45)
      (by decide : (0x45 : Int) &&& 0x3F = 5)
      (by rfl : branch_table (5 : Int) = some push) hpush
  have hrun : run 2 pushPopSp0State = some (.indexError,
      { pushPopSp0State with ir := 5, registers := [42, 0, 0, 0, 0, 0, 0, 255] }) :=
    run_of_step_err 1 hstep
  rw [hrun]
  rfl

/-- **C5** (amended).  For a machine whose SP is in `[1, 255]` and whose
stack slot `SP - 1` does not collide with the four instruction bytes,
executing `PUSH r` and then immediately `POP r` (two loop iterations, any
register index `r`) restores register `r` to its original value, returns SP
to exactly its pre-PUSH value, and leaves `pc` four bytes further. -/
theorem c5_push_then_pop_roundtrip (s : CPUState) (σ r : Int)
    (hlenr : s.registers.length = 8) (hlenm : s.ram.length = 255)
    (hsp : s.registers.getD 7 0 = σ) (hσ1 : 1 ≤ σ) (hσ2 : σ ≤ 255)
    (hpc0 : 0 ≤ s.pc) (hpcB : s.pc + 3 < 255)
    (hC0 : σ - 1 ≠ s.pc) (hC2 : σ - 1 ≠ s.pc + 2) (hC3 : σ - 1 ≠ s.pc + 3)
    (hf1 : pyGet s.ram s.pc = .ok 0x45)
    (hr1 : pyGet s.ram (s.pc + 1) = .ok r)
    (hf2 : pyGet s.ram (s.pc + 2) = .ok 0x46)
    (hr2 : pyGet s.ram (s.pc + 3) = .ok r)
    (hr0 : 0 ≤ r) (hr8 : r < 8) :
    ∃ s1 s2, step s = .ok s1 ∧ step s1 = .ok s2 ∧
      s2.registers.getD r.toNat 0 = s.registers.getD r.toNat 0 ∧
      s2.registers.getD 7 0 = σ ∧ s2.pc = s.pc + 4 := by
  have hmask : (σ - 1) &&& 255 = σ - 1 := land_255_of_range (by omega) (by omega)
  have hf1D : s.ram.getD s.pc.toNat 0 = 0x45 := pyGet_ok_getD hpc0 (by omega) hf1
  have hf2D : s.ram.getD (s.pc + 2).toNat 0 = 0x46 := pyGet_ok_getD (by omega) (by omega) hf2
  have hr2D : s.ram.getD (s.pc + 3).toNat 0 = r := pyGet_ok_getD (by omega) (by omega) hr2
  have hR1sp : (s.registers.set 7 (σ - 1)).getD 7 0 = σ - 1 :=
    getD_set_self _ _ (show (7 : Nat) < s.registers.length by rw [hlenr]; norm_num)
  -- the PUSH iteration
  have hh1 : push { s with ir := (5 : Int) } = .ok
      { s with
        ir := 5
        registers := (s.registers.set 7 (σ - 1))
        ram := (s.ram.set (σ - 1).toNat ((s.registers.set 7 (σ - 1)).getD r.toNat 0)) } :=
    push_ok { s with ir := (5 : Int) } σ (σ - 1) r (by exact hlenr) (by exact hsp) hmask
      (by omega) (by exact (show σ - 1 < (s.ram.length : Int) by rw [hlenm]; omega))
      (by exact hr1) hr0 hr8
  have hb1 : pyGet (s.ram.set (σ - 1).toNat ((s.registers.set 7 (σ - 1)).getD r.toNat 0))
      s.pc = .ok 0x45 := by
    rw [pyGet_eq_ok hpc0 (by rw [List.length_set]; omega),
      getD_set_ne _ _ (by omega : (σ - 1).toNat ≠ s.pc.toNat), hf1D]
  have hs1 : step s = .ok
      { s with
        ir := 5
        registers := (s.registers.set 7 (σ - 1))
        ram := (s.ram.set (σ - 1).toNat ((s.registers.set 7 (σ - 1)).getD r.toNat 0))
        pc := s.pc + 2 } := by
    have h1 := step_ok_advance s (by exact hf1) (by decide : (0x45 : Int) &&& 0x3F = 5)
      (by rfl : branch_table (5 : Int) = some push) hh1 rfl (by decide) (by decide)
      (by decide) (by exact hb1)
    rw [h1, show ((0x45 : Int) >>> (6 : Int)) = 1 from by decide]
    simp only [Except.ok.injEq, CPUState.mk.injEq, and_true, true_and]
    omega
  -- the POP iteration
  have hb2 : pyGet (s.ram.set (σ - 1).toNat ((s.registers.set 7 (σ - 1)).getD r.toNat 0))
      (s.pc + 2) = .ok 0x46 := by
    rw [pyGet_eq_ok (by omega) (by rw [List.length_set]; omega),
      getD_set_ne _ _ (by omega : (σ - 1).toNat ≠ (s.pc + 2).toNat), hf2D]
  have hv2 : pyGet (s.ram.set (σ - 1).toNat ((s.registers.set 7 (σ - 1)).getD r.toNat 0))
      (σ - 1) = .ok ((s.registers.set 7 (σ - 1)).getD r.toNat 0) := by
    rw [pyGet_eq_ok (by omega) (by rw [List.length_set]; omega)]
    rw [getD_set_self _ _ (by omega : (σ - 1).toNat < s.ram.length)]
  have hv2x : pyGet (s.ram.set (σ - 1).toNat ((s.registers.set 7 (σ - 1)).getD r.toNat 0))
      ((s.registers.set 7 (σ - 1)).getD 7 0) =
      .ok ((s.registers.set 7 (σ - 1)).getD r.toNat 0) := by
    rw [hR1sp]
    exact hv2
  have hr2x : pyGet (s.ram.set (σ - 1).toNat ((s.registers.set 7 (σ - 1)).getD r.toNat 0))
      (s.pc + 2 + 1) = .ok r := by
    rw [show s.pc + 2 + 1 = s.pc + 3 from by omega]
    rw [pyGet_eq_ok (by omega) (by rw [List.length_set]; omega),
      getD_set_ne _ _ (by omega : (σ - 1).toNat ≠ (s.pc + 3).toNat), hr2D]
  have hh2 : pop { s with
        ir := (6 : Int)
        registers := (s.registers.set 7 (σ - 1))
        ram := (s.ram.set (σ - 1).toNat ((s.registers.set 7 (σ - 1)).getD r.toNat 0))
        pc := s.pc + 2 } = .ok
      { s with
        ir := 6
        registers := (((s.registers.set 7 (σ - 1)).set r.toNat
            ((s.registers.set 7 (σ - 1)).getD r.toNat 0)).set 7
          (((s.registers.set 7 (σ - 1)).set r.toNat
              ((s.registers.set 7 (σ - 1)).getD r.toNat 0)).getD 7 0 + 1))
        ram := (s.ram.set (σ - 1).toNat ((s.registers.set 7 (σ - 1)).getD r.toNat 0))
        pc := s.pc + 2 } :=
    pop_ok _ ((s.registers.set 7 (σ - 1)).getD r.toNat 0) r
      (by exact (show (s.registers.set 7 (σ - 1)).length = 8 by
        rw [List.length_set]; exact hlenr))
      (by exact hv2x) (by exact hr2x) hr0 hr8
  have hs2 : step { s with
        ir := 5
        registers := (s.registers.set 7 (σ - 1))
        ram := (s.ram.set (σ - 1).toNat ((s.registers.set 7 (σ - 1)).getD r.toNat 0))
        pc := s.pc + 2 } = .ok
      { s with
        ir := 6
        registers := (((s.registers.set 7 (σ - 1)).set r.toNat
            ((s.registers.set 7 (σ - 1)).getD r.toNat 0)).set 7
          (((s.registers.set 7 (σ - 1)).set r.toNat
              ((s.registers.set 7 (σ - 1)).getD r.toNat 0)).getD 7 0 + 1))
        ram := (s.ram.set (σ - 1).toNat ((s.registers.set 7 (σ - 1)).getD r.toNat 0))
        pc := s.pc + 4 } := by
    have h2 := step_ok_advance { s with
        ir := (5 : Int)
        registers := (s.registers.set 7 (σ - 1))
        ram := (s.ram.set (σ - 1).toNat ((s.registers.set 7 (σ - 1)).getD r.toNat 0))
        pc := s.pc + 2 } (by exact hb2) (by decide : (0x46 : Int) &&& 0x3F = 6)
      (by rfl : branch_table (6 : Int) = some pop) hh2 rfl (by decide) (by decide)
      (by decide) (by exact hb2)
    rw [h2, show ((0x46 : Int) >>> (6 : Int)) = 1 from by decide]
    simp only [Except.ok.injEq, CPUState.mk.injEq, and_true, true_and]
    omega
  have hlenA : (s.registers.set 7 (σ - 1)).length = 8 := by
    rw [List.length_set]
    exact hlenr
  have hlenB : ((s.registers.set 7 (σ - 1)).set r.toNat
      ((s.registers.set 7 (σ - 1)).getD r.toNat 0)).length = 8 := by
    rw [List.length_set]
    exact hlenA
  have hrn8 : r.toNat < 8 := by omega
  refine ⟨_, _, hs1, hs2, ?_, ?_, rfl⟩
  · show (((s.registers.set 7 (σ - 1)).set r.toNat
        ((s.registers.set 7 (σ - 1)).getD r.toNat 0)).set 7
      ((((s.registers.set 7 (σ - 1)).set r.toNat
          ((s.registers.set 7 (σ - 1)).getD r.toNat 0))).getD 7 0 + 1)).getD r.toNat 0 =
      s.registers.getD r.toNat 0
    by_cases h7 : r.toNat = 7
    · rw [h7] at hlenB ⊢
      rw [getD_set_self8 7 _ hlenB (by norm_num)]
      rw [getD_set_self8 7 _ hlenA (by norm_num)]
      rw [hR1sp, hsp]
      omega
    · rw [getD_set_ne8 7 r.toNat _ (by omega)]
      rw [getD_set_self8 r.toNat _ hlenA hrn8]
      rw [getD_set_ne8 7 r.toNat _ (by omega)]
  · show (((s.registers.set 7 (σ - 1)).set r.toNat
        ((s.registers.set 7 (σ - 1)).getD r.toNat 0)).set 7
      ((((s.registers.set 7 (σ - 1)).set r.toNat
          ((s.registers.set 7 (σ - 1)).getD r.toNat 0))).getD 7 0 + 1)).getD 7 0 = σ
    rw [getD_set_self8 7 _ hlenB (by norm_num)]
    by_cases h7 : r.toNat = 7
    · rw [h7]
      rw [getD_set_self8 7 _ hlenA (by norm_num)]
      rw [hR1sp]
      omega
    · rw [getD_set_ne8 r.toNat 7 _ h7, hR1sp]
      omega

/-- `PUSH R0; POP R0` from a fresh-style machine: `SP = 0xF4`, register 0
holding 42. -/
def c5State : CPUState :=
  { loadProgram [0x45, 0x00, 0x46, 0x00] freshCPU with
      registers := [42, 0, 0, 0, 0, 0, 0, 0xF4] }

theorem c5_push_then_pop_roundtrip_witness :
    ∃ s1 s2, step c5State = .ok s1 ∧ step s1 = .ok s2 ∧
      s2.registers.getD (0 : Int).toNat 0 = c5State.registers.getD (0 : Int).toNat 0 ∧
      s2.registers.getD 7 0 = 244 ∧ s2.pc = c5State.pc + 4 :=
  c5_push_then_pop_roundtrip c5State 244 0 (by decide) (by decide) (by decide) (by decide)
    (by decide) (by decide) (by decide) (by decide) (by decide) (by decide) (by decide)
    (by decide) (by decide) (by decide) (by decide) (by decide)

end LS8
